import Mathlib

/-!
Verification development for the go-blog-api repository.

The Go source is shallowly embedded: strings are `String`/`List Char`,
UUIDs are `Nat`, times are `Int` (Unix seconds) or `Nat`, the relational
store is a `Store` structure of record lists, and each HTTP handler is a
pure function from its inputs (store, authenticated identity, request
body) to a response and an updated store.
-/

namespace BlogApi

/-! ## Slug generator (api/handlers, post-routes.go: generateSlug / removeSpecialChars)

Go's `strings.ToLower` is modelled on ASCII (`lowerChar`): it maps `A`-`Z`
to `a`-`z` and leaves every other character unchanged.  The regular
expression `[^a-zA-Z0-9\s-]+` of `removeSpecialChars` deletes every
character outside letters, digits, the RE2 whitespace class
`[\t\n\f\r ]` and the hyphen; replacing each maximal run by the empty
string is the same as filtering the kept characters.  The
`for strings.Contains(slug, "--")` loop is modelled with a fuel argument
(`collapseLoop`), with fuel `s.length`, which is enough to reach the
fixed point because each `strings.ReplaceAll(slug, "--", "-")` pass
strictly shrinks a string that still contains `"--"`.
-/

/-- ASCII model of Go `strings.ToLower`: map `A`-`Z` (65-90) to `a`-`z`. -/
def lowerChar (c : Char) : Char :=
  if 65 ≤ c.toNat ∧ c.toNat ≤ 90 then Char.ofNat (c.toNat + 32) else c

/-- RE2 whitespace class `\s` = `[\t\n\f\r ]` (Go regexp has no `\v` in `\s`). -/
def goSpace (c : Char) : Bool :=
  c = ' ' || c = '\t' || c = '\n' || c = '\x0c' || c = '\r'

/-- Characters kept by the regex `[^a-zA-Z0-9\s-]+` → `""` replacement:
ASCII letters, digits, RE2 whitespace, and the hyphen. -/
def keepChar (c : Char) : Bool :=
  (97 ≤ c.toNat && c.toNat ≤ 122) || (65 ≤ c.toNat && c.toNat ≤ 90) ||
    (48 ≤ c.toNat && c.toNat ≤ 57) || goSpace c || c = '-'

/-- `strings.ReplaceAll(slug, " ", "-")`. -/
def replaceSpaces (s : List Char) : List Char :=
  s.map fun c => if c = ' ' then '-' else c

/-- `removeSpecialChars`: `regexp.MustCompile([^a-zA-Z0-9\s-]+).ReplaceAllString(input, "")`. -/
def removeSpecialChars (s : List Char) : List Char :=
  s.filter keepChar

/-- `strings.Contains(slug, "--")`. -/
def containsDD : List Char → Bool
  | c1 :: c2 :: rest => (c1 = '-' && c2 = '-') || containsDD (c2 :: rest)
  | _ => false

/-- One pass of `strings.ReplaceAll(slug, "--", "-")`: left-to-right,
non-overlapping replacement of `"--"` by `"-"`. -/
def replaceDD : List Char → List Char
  | [] => []
  | [c] => [c]
  | c1 :: c2 :: rest =>
    if c1 = '-' ∧ c2 = '-' then '-' :: replaceDD rest
    else c1 :: replaceDD (c2 :: rest)

/-- The `for strings.Contains(slug, "--") { slug = strings.ReplaceAll(slug, "--", "-") }`
loop, with explicit fuel. -/
def collapseLoop : Nat → List Char → List Char
  | 0, s => s
  | n + 1, s => if containsDD s then collapseLoop n (replaceDD s) else s

/-- The hyphen-collapsing loop of `generateSlug`; fuel `s.length` reaches the
fixed point (`containsDD_collapseHyphens`). -/
def collapseHyphens (s : List Char) : List Char :=
  collapseLoop s.length s

/-- `strings.Trim(slug, "-")`: drop leading and trailing hyphens. -/
def trimHyphens (s : List Char) : List Char :=
  (((s.dropWhile fun c => c = '-').reverse.dropWhile fun c => c = '-')).reverse

/-- `generateSlug` on character lists: ToLower; spaces to hyphens; strip
special characters; collapse consecutive hyphens; trim hyphens. -/
def generateSlugL (title : List Char) : List Char :=
  trimHyphens (collapseHyphens (removeSpecialChars (replaceSpaces (title.map lowerChar))))

/-- `generateSlug(title string) string` from the post handler (the category
handler's `generateCategorySlug` is the same function verbatim). -/
def generateSlug (title : String) : String :=
  ⟨generateSlugL title.data⟩

example : generateSlug "Hello, World! 2024" = "hello-world-2024" := by decide
example : generateSlug "  --a--b--  " = "a-b" := by decide
example : generateSlug "a\tb" = "a\tb" := by decide

/-! ## The spec's slugify algorithm (for refinement comparison only) -/

/-- Whitespace as the spec's algorithm description uses it (ASCII whitespace). -/
def specWhitespace (c : Char) : Bool :=
  c = ' ' || c = '\t' || c = '\n' || c = '\x0b' || c = '\x0c' || c = '\r'

/-- Characters inside the spec's class `[a-z0-9-]`. -/
def specKeep (c : Char) : Bool :=
  (97 ≤ c.toNat && c.toNat ≤ 122) || (48 ≤ c.toNat && c.toNat ≤ 57) || c = '-'

/-- Modelled from the spec, not the source: "lower-case the input; replace
whitespace runs with single hyphens; strip every character outside
`[a-z0-9-]`; collapse consecutive hyphens into one; trim leading/trailing
hyphens".  Replacing each whitespace character by a hyphen and collapsing
consecutive hyphens afterwards replaces every whitespace run by a single
hyphen, as the spec asks. -/
def specSlugifyL (s : List Char) : List Char :=
  trimHyphens (collapseHyphens
    (((s.map lowerChar).map fun c => if specWhitespace c then '-' else c).filter specKeep))

/-- String-level version of the spec's slugify algorithm. -/
def specSlugify (s : String) : String :=
  ⟨specSlugifyL s.data⟩

example : specSlugify "Hello, World! 2024" = "hello-world-2024" := by decide
example : specSlugify "a\tb" = "a-b" := by decide

/-! ## Data model (internal/models/models.go)

UUIDs are `Nat`, timestamps are `Nat`.  `gorm.DeletedAt`, `CreatedAt`,
`UpdatedAt` and the GORM association fields are omitted: no claim touches
them.  `Post.Author`, `Comment.Author` and `Post.Comments` are not stored
inline; GORM `Preload` is modelled by looking the associated records up in
the store at read time. -/

structure UserRec where
  id : Nat
  username : String
  email : String
  password : String
  firstName : String
  lastName : String
  role : String
  deriving DecidableEq

structure PostRec where
  id : Nat
  title : String
  content : String
  slug : String
  authorID : Nat
  status : String
  publishedAt : Option Nat
  deriving DecidableEq

structure CommentRec where
  id : Nat
  content : String
  postID : Nat
  authorID : Nat
  parentID : Option Nat
  deriving DecidableEq

/-- The relational store reached through `db.DB` (categories and the
post-category join table are omitted: no claim touches them). -/
structure Store where
  users : List UserRec
  posts : List PostRec
  comments : List CommentRec
  deriving DecidableEq

def findUser (st : Store) (id : Nat) : Option UserRec :=
  st.users.find? fun u => u.id == id

def findPost (st : Store) (id : Nat) : Option PostRec :=
  st.posts.find? fun p => p.id == id

def findPostBySlug (st : Store) (slug : String) : Option PostRec :=
  st.posts.find? fun p => p.slug == slug

def findComment (st : Store) (id : Nat) : Option CommentRec :=
  st.comments.find? fun c => c.id == id

/-- GORM `Preload("Author")` with a missing foreign key leaves the zero-value
`models.User`; `findUserD` models that default. -/
def emptyUser : UserRec :=
  { id := 0, username := "", email := "", password := "",
    firstName := "", lastName := "", role := "" }

def findUserD (st : Store) (id : Nat) : UserRec :=
  (findUser st id).getD emptyUser

/-- `db.DB.Save(&post)`: full-record update of the row with the same id. -/
def savePost (st : Store) (p : PostRec) : Store :=
  { st with posts := st.posts.map fun q => if q.id == p.id then p else q }

def saveUser (st : Store) (u : UserRec) : Store :=
  { st with users := st.users.map fun v => if v.id == u.id then u else v }

def saveComment (st : Store) (c : CommentRec) : Store :=
  { st with comments := st.comments.map fun d => if d.id == c.id then c else d }

/-- Request bodies (internal/models/models.go).  `RegisterRequest` has no
role field: a registering client cannot supply one. -/
structure RegisterRequest where
  username : String
  email : String
  password : String
  firstName : String
  lastName : String
  deriving DecidableEq

structure PostRequest where
  title : String
  content : String
  slug : String
  status : String
  categoryIDs : List Nat
  deriving DecidableEq

structure CommentRequest where
  content : String
  parentID : Option Nat
  deriving DecidableEq

/-- Handler responses: the `c.JSON(status, body)` calls, by HTTP status.
`serverError` is 500, `badRequest` 400 with the Go error message,
`forbidden` 403, `notFound` 404. -/
inductive Resp (α : Type) where
  | ok : α → Resp α
  | badRequest : String → Resp α
  | forbidden : String → Resp α
  | notFound : String → Resp α
  | serverError : String → Resp α
  deriving DecidableEq

/-- Outward JSON representation of a `models.User` under its json tags:
`Password` carries `json:"-"` and is never emitted; `Role` carries
`json:"role"` and always is. (`id`, timestamps and the hidden `Posts`
association are irrelevant to the claims and kept minimal.) -/
structure UserJSON where
  id : Nat
  username : String
  email : String
  firstName : String
  lastName : String
  role : String
  deriving DecidableEq

/-- `encoding/json` marshalling of `models.User`: every field except the
`json:"-"` ones (`Password`, `Posts`, `DeletedAt`). -/
def marshalUser (u : UserRec) : UserJSON :=
  { id := u.id, username := u.username, email := u.email,
    firstName := u.firstName, lastName := u.lastName, role := u.role }

/-! ## User handlers (UserHandler: Register, GetMe, GetAll, UpdateUser, DeleteUser)

The gin context plumbing is modelled away: `AuthMiddleware` always sets a
`uuid.UUID` userID and a `string` role before a protected handler runs, so
the `!exists` / type-assertion failure branches are unreachable on
authenticated requests and the handlers take `actorID : Nat` and
`actorRole : String` directly.  `auth.HashPassword` (bcrypt, an external
dependency) is an arbitrary function parameter `hash`; its error branch is
not modelled.  JSON binding is assumed to have succeeded (the request
value is given). -/

/-- `UserHandler.Register`: reject duplicate username/email, hash the
password, store the user with hard-coded `Role: "user"`, blank the
password and return the user. -/
def register (st : Store) (req : RegisterRequest) (hash : String → String)
    (newID : Nat) : Resp UserJSON × Store :=
  if st.users.any fun u => u.username == req.username then
    (.badRequest "username already exists", st)
  else if st.users.any fun u => u.email == req.email then
    (.badRequest "email already exists", st)
  else
    let user : UserRec :=
      { id := newID, username := req.username, email := req.email,
        password := hash req.password, firstName := req.firstName,
        lastName := req.lastName, role := "user" }
    (.ok (marshalUser { user with password := "" }),
     { st with users := st.users ++ [user] })

/-- `UserHandler.GetMe`: load the authenticated user, blank the password
(and only the password), return it. -/
def getMe (st : Store) (actorID : Nat) : Resp UserJSON :=
  match findUser st actorID with
  | none => .serverError "failed to get user"
  | some user => .ok (marshalUser { user with password := "" })

/-- `UserHandler.GetAll` (admin-gated by `RoleMiddleware("admin")` at the
route): list every user, blanking only passwords. -/
def getAllUsers (st : Store) : Resp (List UserJSON) :=
  .ok (st.users.map fun u => marshalUser { u with password := "" })

/-- The anonymous `updateData` struct bound in `UserHandler.UpdateUser`. -/
structure UserUpdateData where
  firstName : String
  lastName : String
  email : String
  password : String
  role : String
  deriving DecidableEq

/-- The field-update tail of `UserHandler.UpdateUser` (everything after the
permission check and the record load): apply each provided (non-empty)
field in source order — first name, last name, email (with a uniqueness
check against other users, aborting with 400 before any save), role (only
when the caller is admin), password (stored hashed) — then save; the
response blanks the password. -/
def applyUserUpdate (st : Store) (targetID : Nat) (user : UserRec)
    (d : UserUpdateData) (actorRole : String) (hash : String → String) :
    Resp UserJSON × Store :=
  let u1 := if d.firstName ≠ "" then { user with firstName := d.firstName } else user
  let u2 := if d.lastName ≠ "" then { u1 with lastName := d.lastName } else u1
  if d.email ≠ "" ∧ d.email ≠ user.email ∧
      (st.users.any fun v => v.email == d.email && v.id != targetID) then
    (.badRequest "email already exists", st)
  else
    let u3 := if d.email ≠ "" ∧ d.email ≠ user.email then { u2 with email := d.email } else u2
    let u4 := if d.role ≠ "" ∧ actorRole = "admin" then { u3 with role := d.role } else u3
    let u5 := if d.password ≠ "" then { u4 with password := hash d.password } else u4
    (.ok (marshalUser { u5 with password := "" }), saveUser st u5)

/-- `UserHandler.UpdateUser`: allow only self-update or admin, load the
target record, then apply the update (`applyUserUpdate`). -/
def updateUser (st : Store) (targetID actorID : Nat) (actorRole : String)
    (d : UserUpdateData) (hash : String → String) : Resp UserJSON × Store :=
  if targetID ≠ actorID ∧ actorRole ≠ "admin" then
    (.forbidden "permission denied", st)
  else
    match findUser st targetID with
    | none => (.notFound "user not found", st)
    | some user => applyUserUpdate st targetID user d actorRole hash

/-- `UserHandler.DeleteUser`: allow only self-delete or admin, then remove
the record. -/
def deleteUser (st : Store) (targetID actorID : Nat) (actorRole : String) :
    Resp String × Store :=
  if targetID ≠ actorID ∧ actorRole ≠ "admin" then
    (.forbidden "permission denied", st)
  else
    match findUser st targetID with
    | none => (.notFound "user not found", st)
    | some _ =>
      (.ok "user deleted successfully",
       { st with users := st.users.filter fun u => u.id != targetID })

/-! ## Post handlers (PostHandler: CreatePost, GetPostByID, GetPostBySlug,
UpdatePost, DeletePost)

`uuid.New().String()[:8]`, the random slug suffix, is a `suffix : String`
parameter; `time.Now()` is a `now : Nat` parameter; the id GORM's
`BeforeCreate` hook would mint is `newID`.  The category-association
blocks are omitted: they mutate only the `post_categories` join table
(invalid ids silently skipped), never a post field.  The author/category
reloading before the final `c.JSON` is likewise omitted from the mutating
handlers; the read handlers below model it. -/

/-- The outward representation built by the single-post read handlers:
the post, its preloaded author, and its preloaded comments with their
authors. -/
structure CommentView where
  comment : CommentRec
  author : UserJSON
  deriving DecidableEq

structure PostView where
  post : PostRec
  author : UserJSON
  comments : List CommentView
  deriving DecidableEq

/-- `PostHandler.CreatePost`: slugify the provided slug (or the title),
suffix it when taken, default the status to `draft`, stamp `PublishedAt`
with the current time iff the effective status is `published`, insert. -/
def createPost (st : Store) (actorID : Nat) (req : PostRequest)
    (suffix : String) (now : Nat) (newID : Nat) : Resp PostRec × Store :=
  let slug0 := if req.slug == "" then generateSlug req.title else generateSlug req.slug
  let slug := if st.posts.any fun p => p.slug == slug0 then slug0 ++ "-" ++ suffix else slug0
  let status := if req.status == "" then "draft" else req.status
  let post : PostRec :=
    { id := newID, title := req.title, content := req.content, slug := slug,
      authorID := actorID, status := status,
      publishedAt := if status == "published" then some now else none }
  (.ok post, { st with posts := st.posts ++ [post] })

/-- `PostHandler.GetPostByID`: load the post with author and comments; a
post whose status is not `published` is answered with 404 unconditionally
(the author/admin visibility carve-out is commented out in the source);
the author's password and role are blanked, the comment authors' passwords
(only) are blanked. -/
def getPostByID (st : Store) (id : Nat) : Resp PostView :=
  match findPost st id with
  | none => .notFound "post not found"
  | some post =>
    if post.status ≠ "published" then
      .notFound "post not published yet from author"
    else
      let author := findUserD st post.authorID
      .ok { post := post,
            author := marshalUser { author with password := "", role := "" },
            comments := (st.comments.filter fun c => c.postID == id).map fun c =>
              { comment := c,
                author := marshalUser { findUserD st c.authorID with password := "" } } }

/-- `PostHandler.GetPostBySlug`: same loading and blanking as by-ID, but
the whole status check is commented out in the source, so the post is
returned whatever its status. -/
def getPostBySlug (st : Store) (slug : String) : Resp PostView :=
  match findPostBySlug st slug with
  | none => .notFound "post not found"
  | some post =>
    let author := findUserD st post.authorID
    .ok { post := post,
          author := marshalUser { author with password := "", role := "" },
          comments := (st.comments.filter fun c => c.postID == post.id).map fun c =>
            { comment := c,
              author := marshalUser { findUserD st c.authorID with password := "" } } }

/-- `if req.Title != "" { post.Title = req.Title }`. -/
def titleStep (req : PostRequest) (post : PostRec) : PostRec :=
  if req.title ≠ "" then { post with title := req.title } else post

/-- `if req.Content != "" { post.Content = req.Content }`. -/
def contentStep (req : PostRequest) (post : PostRec) : PostRec :=
  if req.content ≠ "" then { post with content := req.content } else post

/-- Re-slugify from the provided slug, or from the provided title. -/
def slugStep (req : PostRequest) (post : PostRec) : PostRec :=
  if req.slug ≠ "" then { post with slug := generateSlug req.slug }
  else if req.title ≠ "" then { post with slug := generateSlug req.title }
  else post

/-- Append the random suffix when another post already holds the slug. -/
def slugUniqueStep (st : Store) (postID : Nat) (suffix : String)
    (post : PostRec) : PostRec :=
  if st.posts.any fun q => q.slug == post.slug && q.id != postID then
    { post with slug := post.slug ++ "-" ++ suffix }
  else post

/-- The status change: runs only when a status is provided and differs
from the loaded record's, and stamps `PublishedAt` only when it is nil. -/
def statusStep (req : PostRequest) (old : PostRec) (now : Nat)
    (post : PostRec) : PostRec :=
  if req.status ≠ "" ∧ req.status ≠ old.status then
    { post with status := req.status,
                publishedAt :=
                  if req.status = "published" ∧ post.publishedAt = none then some now
                  else post.publishedAt }
  else post

/-- The record produced by the field-update tail of `PostHandler.UpdatePost`
(everything after the permission check), as the composition of its
sequential steps. -/
def updatedPost (st : Store) (postID : Nat) (post : PostRec)
    (req : PostRequest) (suffix : String) (now : Nat) : PostRec :=
  statusStep req post now
    (slugUniqueStep st postID suffix (slugStep req (contentStep req (titleStep req post))))

/-- `PostHandler.UpdatePost`: load, check author-or-admin, compute the
updated record (`updatedPost`), save it and return it. -/
def updatePost (st : Store) (postID actorID : Nat) (role : String)
    (req : PostRequest) (suffix : String) (now : Nat) : Resp PostRec × Store :=
  match findPost st postID with
  | none => (.notFound "post not found", st)
  | some post =>
    if post.authorID ≠ actorID ∧ role ≠ "admin" then
      (.forbidden "permission denied", st)
    else
      (.ok (updatedPost st postID post req suffix now),
       savePost st (updatedPost st postID post req suffix now))

/-- `PostHandler.DeletePost`: load, check author-or-admin, remove. -/
def deletePost (st : Store) (postID actorID : Nat) (role : String) :
    Resp String × Store :=
  match findPost st postID with
  | none => (.notFound "post not found", st)
  | some post =>
    if post.authorID ≠ actorID ∧ role ≠ "admin" then
      (.forbidden "permission denied", st)
    else
      (.ok "post deleted successfully",
       { st with posts := st.posts.filter fun p => p.id != postID })

/-! ## Comment handlers (CommentHandler: CreateComment, UpdateComment,
DeleteComment) -/

/-- `CommentHandler.CreateComment`: the target post must exist and be
`published`; a supplied parent must exist and belong to the same post;
only then is the comment inserted. -/
def createComment (st : Store) (postID actorID : Nat) (req : CommentRequest)
    (newID : Nat) : Resp CommentRec × Store :=
  match findPost st postID with
  | none => (.notFound "post not found", st)
  | some post =>
    if post.status ≠ "published" then
      (.badRequest "cannot comment on unpublished posts", st)
    else
      let comment : CommentRec :=
        { id := newID, content := req.content, postID := postID,
          authorID := actorID, parentID := req.parentID }
      match req.parentID with
      | some pid =>
        match findComment st pid with
        | none => (.badRequest "parent comment not found", st)
        | some parent =>
          if parent.postID ≠ postID then
            (.badRequest "parent comment does not belong to the same post", st)
          else
            (.ok comment, { st with comments := st.comments ++ [comment] })
      | none =>
        (.ok comment, { st with comments := st.comments ++ [comment] })

/-- `CommentHandler.UpdateComment`: load, check author-or-admin, apply a
non-empty content, save. -/
def updateComment (st : Store) (commentID actorID : Nat) (role : String)
    (req : CommentRequest) : Resp CommentRec × Store :=
  match findComment st commentID with
  | none => (.notFound "Comment not found", st)
  | some comment =>
    if comment.authorID ≠ actorID ∧ role ≠ "admin" then
      (.forbidden "permission denied", st)
    else
      let c1 := if req.content ≠ "" then { comment with content := req.content } else comment
      (.ok c1, saveComment st c1)

/-- `CommentHandler.DeleteComment`: load, check author-or-admin, remove. -/
def deleteComment (st : Store) (commentID actorID : Nat) (role : String) :
    Resp String × Store :=
  match findComment st commentID with
  | none => (.notFound "Comment not found", st)
  | some comment =>
    if comment.authorID ≠ actorID ∧ role ≠ "admin" then
      (.forbidden "permission denied", st)
    else
      (.ok "comment deleted successfully",
       { st with comments := st.comments.filter fun c => c.id != commentID })

/-! ## Token validation (internal/auth: ValidateToken)

A signed token is modelled abstractly: its decoded claims plus two facts
the cryptographic library establishes, whether the signature verifies and
whether the compact serialization parses.  `jwt.ParseWithClaims` comes
from golang-jwt/v4, an external dependency: it fails on a malformed or
badly-signed token and also validates the registered claims, rejecting
the token when `now.Before(exp)` is false, i.e. when `exp ≤ now`. -/

structure JWTClaim where
  userID : Nat
  username : String
  email : String
  role : String
  /-- `ExpiresAt`, Unix seconds. -/
  expiresAt : Int
  deriving DecidableEq

structure SignedToken where
  claims : JWTClaim
  sigValid : Bool
  wellFormed : Bool
  deriving DecidableEq

/-- golang-jwt/v4 `jwt.ParseWithClaims` (external library): error unless the
token parses, its signature verifies, and `now < exp`. -/
def parseWithClaims (t : SignedToken) (now : Int) : Except String JWTClaim :=
  if ¬t.wellFormed then .error "token contains an invalid number of segments"
  else if ¬t.sigValid then .error "signature is invalid"
  else if ¬(now < t.claims.expiresAt) then .error "token is expired"
  else .ok t.claims

/-- `auth.ValidateToken`: parse (which already verifies signature and
expiry), then the handler's own strict-inequality expiry re-check. -/
def validateToken (t : SignedToken) (now : Int) : Except String JWTClaim :=
  match parseWithClaims t now with
  | .error e => .error e
  | .ok claims =>
    if claims.expiresAt < now then .error "token expired"
    else .ok claims

/-! ## Theorems -/

/-- Helper: does a handler outcome report an error? -/
def isErr {α : Type} : Except String α → Bool
  | .error _ => true
  | .ok _ => false

/-- Claim C8: token validation fails with an authentication error exactly
when the signature is invalid, the token structure is unparseable, or the
expiry timestamp is at or before the validation time; in particular a
token validated exactly at its expiry instant, or any time after it, is
rejected. -/
theorem validateToken_fails_iff (t : SignedToken) (now : Int) :
    isErr (validateToken t now) = true ↔
      (t.sigValid = false ∨ t.wellFormed = false ∨ t.claims.expiresAt ≤ now) := by
  rcases t with ⟨claims, sig, wf⟩
  by_cases h : now < claims.expiresAt
  · have h2 : ¬(claims.expiresAt < now) := by omega
    cases sig <;> cases wf <;>
      simp [validateToken, parseWithClaims, isErr, h, h2]
  · have h2 : claims.expiresAt ≤ now := by omega
    cases sig <;> cases wf <;>
      simp [validateToken, parseWithClaims, isErr, h, h2]

/-- Claim C10: every user record created through registration has role
`user`: on success the returned representation carries role `user`, and
every record the operation adds to the store (any record not already
present) has role `user`, whatever the client supplied — the
`RegisterRequest` body has no role field at all. -/
theorem register_role_always_user (st : Store) (req : RegisterRequest)
    (hash : String → String) (newID : Nat) :
    (∀ u, (register st req hash newID).1 = Resp.ok u → u.role = "user") ∧
    (∀ v, v ∈ (register st req hash newID).2.users → v ∈ st.users ∨ v.role = "user") := by
  unfold register
  split_ifs with h1 h2 <;> constructor <;> intro v hv
  · exact absurd hv (by simp)
  · exact Or.inl hv
  · exact absurd hv (by simp)
  · exact Or.inl hv
  · simp only [Resp.ok.injEq] at hv
    subst hv; rfl
  · simp only [List.mem_append, List.mem_singleton] at hv
    rcases hv with h | h
    · exact Or.inl h
    · subst h; exact Or.inr rfl

/-- Witness for C10 at a concrete registration. -/
theorem register_role_always_user_witness :
    ({ id := 7, username := "alice", email := "a@x", firstName := "A",
       lastName := "L", role := "user" } : UserJSON).role = "user" :=
  (register_role_always_user
      { users := [], posts := [], comments := [] }
      { username := "alice", email := "a@x", password := "pw",
        firstName := "A", lastName := "L" }
      (fun p => "h" ++ p) 7).1 _ (by decide)

/-- The field-update tail of `UserHandler.UpdateUser` never reports a
permission error: its only failure is the email-uniqueness 400. -/
theorem applyUserUpdate_not_forbidden (st : Store) (targetID : Nat)
    (user : UserRec) (d : UserUpdateData) (actorRole : String)
    (hash : String → String) (msg : String) :
    (applyUserUpdate st targetID user d actorRole hash).1 ≠ .forbidden msg := by
  unfold applyUserUpdate
  split_ifs <;> simp

/-- Claim C1: for every mutating request on a post (update, delete), a
comment (update, delete), or a user profile (update, delete), the
operation is denied with a permission error exactly when the actor is
neither admin nor the resource owner (the post/comment author, or the
profile's own user); equivalently, it is permitted iff the actor's role
is `admin` or the actor's ID equals the owner's. -/
theorem mutations_permitted_iff_admin_or_owner
    (st : Store) (actorID : Nat) (role : String)
    (postID : Nat) (post : PostRec) (hp : findPost st postID = some post)
    (commentID : Nat) (cmt : CommentRec) (hc : findComment st commentID = some cmt)
    (targetUserID : Nat) (preq : PostRequest) (creq : CommentRequest)
    (d : UserUpdateData) (hash : String → String) (suffix : String) (now : Nat) :
    ((updatePost st postID actorID role preq suffix now).1 = .forbidden "permission denied"
        ↔ ¬(role = "admin" ∨ actorID = post.authorID)) ∧
    ((deletePost st postID actorID role).1 = .forbidden "permission denied"
        ↔ ¬(role = "admin" ∨ actorID = post.authorID)) ∧
    ((updateComment st commentID actorID role creq).1 = .forbidden "permission denied"
        ↔ ¬(role = "admin" ∨ actorID = cmt.authorID)) ∧
    ((deleteComment st commentID actorID role).1 = .forbidden "permission denied"
        ↔ ¬(role = "admin" ∨ actorID = cmt.authorID)) ∧
    ((updateUser st targetUserID actorID role d hash).1 = .forbidden "permission denied"
        ↔ ¬(role = "admin" ∨ actorID = targetUserID)) ∧
    ((deleteUser st targetUserID actorID role).1 = .forbidden "permission denied"
        ↔ ¬(role = "admin" ∨ actorID = targetUserID)) := by
  refine ⟨?_, ?_, ?_, ?_, ?_, ?_⟩
  · simp only [updatePost, hp]
    by_cases h : post.authorID ≠ actorID ∧ role ≠ "admin"
    · rw [if_pos h]; simp only [true_iff]; tauto
    · rw [if_neg h]; simp only [false_iff]
      constructor <;> [skip; (intro hcon; exact absurd (by tauto) h)]
      exact fun hcon => absurd hcon (by simp)
  · simp only [deletePost, hp]
    by_cases h : post.authorID ≠ actorID ∧ role ≠ "admin"
    · rw [if_pos h]; simp only [true_iff]; tauto
    · rw [if_neg h]
      constructor
      · intro hcon; exact absurd hcon (by simp)
      · intro hcon; exact absurd (by tauto) h
  · simp only [updateComment, hc]
    by_cases h : cmt.authorID ≠ actorID ∧ role ≠ "admin"
    · rw [if_pos h]; simp only [true_iff]; tauto
    · rw [if_neg h]
      constructor
      · intro hcon; exact absurd hcon (by simp)
      · intro hcon; exact absurd (by tauto) h
  · simp only [deleteComment, hc]
    by_cases h : cmt.authorID ≠ actorID ∧ role ≠ "admin"
    · rw [if_pos h]; simp only [true_iff]; tauto
    · rw [if_neg h]
      constructor
      · intro hcon; exact absurd hcon (by simp)
      · intro hcon; exact absurd (by tauto) h
  · simp only [updateUser]
    by_cases h : targetUserID ≠ actorID ∧ role ≠ "admin"
    · rw [if_pos h]; simp only [true_iff]; tauto
    · rw [if_neg h]
      constructor
      · intro hcon
        rcases hfind : findUser st targetUserID with _ | u <;>
          simp only [hfind] at hcon
        · exact absurd hcon (by simp)
        · exact absurd hcon (applyUserUpdate_not_forbidden _ _ _ _ _ _ _)
      · intro hcon; exact absurd (by tauto) h
  · simp only [deleteUser]
    by_cases h : targetUserID ≠ actorID ∧ role ≠ "admin"
    · rw [if_pos h]; simp only [true_iff]; tauto
    · rw [if_neg h]
      constructor
      · intro hcon
        rcases hfind : findUser st targetUserID with _ | u <;>
          simp only [hfind] at hcon <;> exact absurd hcon (by simp)
      · intro hcon; exact absurd (by tauto) h

def wC1Store : Store :=
  { users := [⟨1, "u1", "e1", "p1", "", "", "user"⟩, ⟨2, "u2", "e2", "p2", "", "", "user"⟩],
    posts := [⟨10, "T", "C", "t", 2, "published", none⟩],
    comments := [⟨20, "hi", 10, 2, none⟩] }

/-- Witness for C1: a non-admin non-owner's post update is denied with a
permission error. -/
theorem mutations_permitted_iff_admin_or_owner_witness :
    (updatePost wC1Store 10 1 "user" ⟨"T2", "C2", "", "", []⟩ "abc" 5).1 =
      Resp.forbidden "permission denied" :=
  (mutations_permitted_iff_admin_or_owner wC1Store 1 "user"
      10 ⟨10, "T", "C", "t", 2, "published", none⟩ (by decide)
      20 ⟨20, "hi", 10, 2, none⟩ (by decide)
      2 ⟨"T2", "C2", "", "", []⟩ ⟨"x", none⟩ ⟨"", "", "", "", ""⟩
      (fun p => p) "abc" 5).1.mpr (by decide)

def wC2Store : Store :=
  { users := [⟨2, "bob", "b@x", "pw", "", "", "user"⟩],
    posts := [⟨10, "T", "C", "d", 2, "draft", none⟩],
    comments := [] }

/-- Claim C2 (amended): a post whose status is not `published` is masked
as not found on the generic by-ID read path, for every caller; but the
by-slug read path — whose visibility check is commented out in the source
— returns the post, whatever its status. -/
theorem unpublished_read_paths (st : Store) (id : Nat) (post : PostRec)
    (slug : String) (post' : PostRec)
    (hid : findPost st id = some post) (hstatus : post.status ≠ "published")
    (hslug : findPostBySlug st slug = some post') :
    getPostByID st id = .notFound "post not published yet from author" ∧
    ∃ v, getPostBySlug st slug = .ok v ∧ v.post = post' := by
  constructor
  · simp only [getPostByID, hid]
    rw [if_pos hstatus]
  · simp only [getPostBySlug, hslug]
    exact ⟨_, rfl, rfl⟩

/-- Witness for C2 (amended): a draft post is hidden by ID but served by
slug. -/
theorem unpublished_read_paths_witness :
    getPostByID wC2Store 10 = .notFound "post not published yet from author" ∧
    ∃ v, getPostBySlug wC2Store "d" = .ok v ∧ v.post = ⟨10, "T", "C", "d", 2, "draft", none⟩ :=
  unpublished_read_paths wC2Store 10 ⟨10, "T", "C", "d", 2, "draft", none⟩
    "d" ⟨10, "T", "C", "d", 2, "draft", none⟩ (by decide) (by decide) (by decide)

/-- Counterexample to C2 as stated: in a store holding one draft post with
slug `d`, the public by-slug read returns the draft post itself (to any
caller, authenticated or not), not a not-found result. -/
theorem draft_visible_by_slug_counterexample :
    getPostBySlug wC2Store "d" =
      Resp.ok { post := ⟨10, "T", "C", "d", 2, "draft", none⟩,
                author := ⟨2, "bob", "b@x", "", "", ""⟩,
                comments := [] } ∧
    ("draft" : String) ≠ "published" := by
  decide

/-- Claim C7: a comment-creation request is rejected — with the store left
unchanged — when the target post is not `published` (400), when the
supplied parent comment does not exist (400), and when the supplied parent
belongs to a different post (400). -/
theorem createComment_rejections (st : Store) (postID actorID : Nat)
    (req : CommentRequest) (newID : Nat) (post : PostRec)
    (hp : findPost st postID = some post) :
    (post.status ≠ "published" →
      createComment st postID actorID req newID =
        (.badRequest "cannot comment on unpublished posts", st)) ∧
    (∀ pid, post.status = "published" → req.parentID = some pid →
      findComment st pid = none →
      createComment st postID actorID req newID =
        (.badRequest "parent comment not found", st)) ∧
    (∀ pid parent, post.status = "published" → req.parentID = some pid →
      findComment st pid = some parent → parent.postID ≠ postID →
      createComment st postID actorID req newID =
        (.badRequest "parent comment does not belong to the same post", st)) := by
  refine ⟨?_, ?_, ?_⟩
  · intro hstatus
    simp only [createComment, hp]
    rw [if_pos hstatus]
  · intro pid hstatus hparent hfind
    simp only [createComment, hp, hparent, hfind]
    rw [if_neg (by simp [hstatus])]
  · intro pid parent hstatus hparent hfind hdiff
    simp only [createComment, hp, hparent, hfind]
    rw [if_neg (by simp [hstatus]), if_pos hdiff]

def wC7Store : Store :=
  { users := [⟨1, "u1", "e1", "p1", "", "", "user"⟩],
    posts := [⟨10, "T", "C", "t", 1, "published", none⟩,
              ⟨11, "T2", "C2", "t2", 1, "published", none⟩],
    comments := [⟨20, "hi", 11, 1, none⟩] }

/-- Witness for C7: commenting on post 10 with a parent that lives on
post 11 is rejected and persists nothing. -/
theorem createComment_rejections_witness :
    createComment wC7Store 10 1 ⟨"reply", some 20⟩ 30 =
      (.badRequest "parent comment does not belong to the same post", wC7Store) :=
  (createComment_rejections wC7Store 10 1 ⟨"reply", some 20⟩ 30
      ⟨10, "T", "C", "t", 1, "published", none⟩ (by decide)).2.2
    20 ⟨20, "hi", 11, 1, none⟩ (by decide) (by decide) (by decide) (by decide)

/-- The title, content and slug steps touch neither the status nor the
publish timestamp. -/
theorem preSteps_status_publishedAt (st : Store) (postID : Nat)
    (post : PostRec) (req : PostRequest) (suffix : String) :
    ((slugUniqueStep st postID suffix
        (slugStep req (contentStep req (titleStep req post)))).publishedAt =
      post.publishedAt) ∧
    ((slugUniqueStep st postID suffix
        (slugStep req (contentStep req (titleStep req post)))).status =
      post.status) := by
  unfold slugUniqueStep slugStep contentStep titleStep
  split_ifs <;> exact ⟨rfl, rfl⟩

theorem updatedPost_status_publishedAt (st : Store) (postID : Nat)
    (post : PostRec) (req : PostRequest) (suffix : String) (now : Nat) :
    (updatedPost st postID post req suffix now).publishedAt =
      (if req.status ≠ "" ∧ req.status ≠ post.status then
        (if req.status = "published" ∧ post.publishedAt = none then some now
         else post.publishedAt)
       else post.publishedAt) ∧
    (updatedPost st postID post req suffix now).status =
      (if req.status ≠ "" ∧ req.status ≠ post.status then req.status else post.status) := by
  obtain ⟨e1, e2⟩ := preSteps_status_publishedAt st postID post req suffix
  unfold updatedPost statusStep
  split_ifs with h1 h2 <;> simp_all

/-- Claim C6: the publish timestamp is stamped exactly at the first
transition into `published` — at creation when the effective status is
`published`, or at the update that changes the status to `published`
while the timestamp is still nil — and once non-nil it is never
overwritten: updates that keep the status (or send none) leave it
unchanged, and re-publishing preserves the existing value. -/
theorem publish_timestamp_set_once (st : Store) (postID actorID : Nat)
    (role : String) (req : PostRequest) (suffix : String) (now : Nat)
    (post : PostRec) (hp : findPost st postID = some post)
    (hauth : actorID = post.authorID ∨ role = "admin") :
    (∃ p', (updatePost st postID actorID role req suffix now).1 = .ok p' ∧
      (∀ t, post.publishedAt = some t → p'.publishedAt = some t) ∧
      ((req.status = "" ∨ req.status = post.status) → p'.publishedAt = post.publishedAt) ∧
      (post.publishedAt = none → req.status = "published" → post.status ≠ "published" →
        p'.publishedAt = some now ∧ p'.status = "published")) ∧
    (∀ st' aid req' sfx' now' nid p'',
      (createPost st' aid req' sfx' now' nid).1 = .ok p'' →
      (p''.status = "published" → p''.publishedAt = some now') ∧
      (p''.status ≠ "published" → p''.publishedAt = none)) := by
  constructor
  · refine ⟨updatedPost st postID post req suffix now, ?_, ?_, ?_, ?_⟩
    · simp only [updatePost, hp]
      rw [if_neg (by tauto)]
    · intro t ht
      rw [(updatedPost_status_publishedAt st postID post req suffix now).1]
      split_ifs with h1 h2 <;> simp_all
    · intro hsame
      rw [(updatedPost_status_publishedAt st postID post req suffix now).1]
      rw [if_neg (by tauto)]
    · intro hnil hpub hchanged
      obtain ⟨e1, e2⟩ := updatedPost_status_publishedAt st postID post req suffix now
      have hcond : req.status ≠ "" ∧ req.status ≠ post.status := by
        constructor
        · rw [hpub]; decide
        · rw [hpub]; exact fun hcon => hchanged hcon.symm
      rw [e1, if_pos hcond, if_pos ⟨hpub, hnil⟩, e2, if_pos hcond]
      exact ⟨rfl, hpub⟩
  · intro st' aid req' sfx' now' nid p'' hok
    simp only [createPost, Resp.ok.injEq] at hok
    subst hok
    by_cases h : (if req'.status == "" then "draft" else req'.status) = "published" <;>
      simp_all

def wC6Store : Store :=
  { users := [⟨1, "u1", "e1", "p1", "", "", "user"⟩],
    posts := [⟨10, "T", "C", "t", 1, "published", some 3⟩],
    comments := [] }

/-- Witness for C6: an edit that keeps a published post published leaves
its timestamp at its original value. -/
theorem publish_timestamp_set_once_witness :
    ∃ p', (updatePost wC6Store 10 1 "user" ⟨"", "", "", "published", []⟩ "s" 9).1 = .ok p' ∧
      p'.publishedAt = some 3 := by
  obtain ⟨⟨p', h1, h2, _, _⟩, _⟩ :=
    publish_timestamp_set_once wC6Store 10 1 "user" ⟨"", "", "", "published", []⟩ "s" 9
      ⟨10, "T", "C", "t", 1, "published", some 3⟩ (by decide) (Or.inl rfl)
  exact ⟨p', h1, h2 3 rfl⟩

/-- Claim C3: a non-admin self-update that supplies a non-empty role value
still succeeds; the stored role is unchanged (it is not mentioned in the
saved record's updates below, so it keeps `user.role`), no error is
reported for the role attempt, and the other provided fields — first
name, last name, email (when available), password (hashed) — are
applied. -/
theorem nonadmin_role_update_ignored (st : Store) (targetID : Nat)
    (actorRole : String) (d : UserUpdateData) (hash : String → String)
    (user : UserRec)
    (hrole : actorRole ≠ "admin") (_hprovided : d.role ≠ "")
    (hfind : findUser st targetID = some user)
    (hemail : ¬(d.email ≠ "" ∧ d.email ≠ user.email ∧
        (st.users.any fun v => v.email == d.email && v.id != targetID) = true)) :
    updateUser st targetID targetID actorRole d hash =
      (.ok (marshalUser { user with
              firstName := if d.firstName ≠ "" then d.firstName else user.firstName,
              lastName := if d.lastName ≠ "" then d.lastName else user.lastName,
              email := if d.email ≠ "" ∧ d.email ≠ user.email then d.email else user.email,
              password := "" }),
       saveUser st { user with
              firstName := if d.firstName ≠ "" then d.firstName else user.firstName,
              lastName := if d.lastName ≠ "" then d.lastName else user.lastName,
              email := if d.email ≠ "" ∧ d.email ≠ user.email then d.email else user.email,
              password := if d.password ≠ "" then hash d.password else user.password }) := by
  simp only [updateUser]
  rw [if_neg (by simp)]
  simp only [hfind, applyUserUpdate]
  have hradmin : ¬(d.role ≠ "" ∧ actorRole = "admin") := fun hcon => hrole hcon.2
  rw [if_neg hemail, if_neg hradmin]
  split_ifs <;> rfl

def wC3Store : Store :=
  { users := [⟨1, "ann", "a@x", "pw", "F", "L", "user"⟩],
    posts := [], comments := [] }

/-- Witness for C3: a non-admin supplying `role: "admin"` gets a
successful update with role untouched and the first name applied. -/
theorem nonadmin_role_update_ignored_witness :
    updateUser wC3Store 1 1 "user" ⟨"N", "", "", "", "admin"⟩ (fun p => "h" ++ p) =
      (.ok (marshalUser ⟨1, "ann", "a@x", "", "N", "L", "user"⟩),
       saveUser wC3Store ⟨1, "ann", "a@x", "pw", "N", "L", "user"⟩) := by
  have h := nonadmin_role_update_ignored wC3Store 1 "user"
    ⟨"N", "", "", "", "admin"⟩ (fun p => "h" ++ p)
    ⟨1, "ann", "a@x", "pw", "F", "L", "user"⟩
    (by decide) (by decide) (by decide) (by decide)
  simpa using h

/-- Claim C4 (amended): the password never appears in any outward User
representation — marshalling is independent of the password field (the
`json:"-"` tag) — but the role field does appear: the single-post read
paths blank the top-level author's role to the empty string, while
`GetMe` (like register, get-all-users and user update) returns the
stored role value unchanged. -/
theorem user_representations_password_and_role (u : UserRec) (p : String)
    (st : Store) (id : Nat) (v : PostView) (uid : Nat) (user : UserRec)
    (hok : getPostByID st id = .ok v)
    (hfind : findUser st uid = some user) :
    marshalUser { u with password := p } = marshalUser u ∧
    v.author.role = "" ∧
    getMe st uid = .ok (marshalUser { user with password := "" }) ∧
    (marshalUser { user with password := "" }).role = user.role := by
  refine ⟨rfl, ?_, ?_, rfl⟩
  · revert hok
    simp only [getPostByID]
    rcases findPost st id with _ | post
    · intro hcon; exact absurd hcon (by simp)
    · dsimp only
      split_ifs
      · intro hcon; exact absurd hcon (by simp)
      · intro hok
        simp only [Resp.ok.injEq] at hok
        subst hok; rfl
  · simp only [getMe, hfind]

def wC4Store : Store :=
  { users := [⟨1, "root", "r@x", "pw", "", "", "admin"⟩,
              ⟨2, "ann", "a@x", "pw", "", "", "user"⟩],
    posts := [⟨10, "T", "C", "t", 2, "published", some 4⟩],
    comments := [] }

/-- Witness for C4 (amended), on a store with an admin, a second user and
a published post. -/
theorem user_representations_password_and_role_witness :
    marshalUser { (⟨9, "x", "e", "s", "f", "l", "user"⟩ : UserRec) with password := "q" } =
      marshalUser ⟨9, "x", "e", "s", "f", "l", "user"⟩ ∧
    (PostView.author ⟨⟨10, "T", "C", "t", 2, "published", some 4⟩,
        ⟨2, "ann", "a@x", "", "", ""⟩, []⟩).role = "" ∧
    getMe wC4Store 1 =
      .ok (marshalUser { (⟨1, "root", "r@x", "pw", "", "", "admin"⟩ : UserRec) with
            password := "" }) ∧
    (marshalUser { (⟨1, "root", "r@x", "pw", "", "", "admin"⟩ : UserRec) with
        password := "" }).role = UserRec.role ⟨1, "root", "r@x", "pw", "", "", "admin"⟩ :=
  user_representations_password_and_role ⟨9, "x", "e", "s", "f", "l", "user"⟩ "q"
    wC4Store 10 ⟨⟨10, "T", "C", "t", 2, "published", some 4⟩, ⟨2, "ann", "a@x", "", "", ""⟩, []⟩
    1 ⟨1, "root", "r@x", "pw", "", "", "admin"⟩ (by decide) (by decide)

/-- Counterexample to C4 as stated: `GetMe` returns a representation whose
role field carries the stored role (`admin` here, a non-empty value), so a
read path does expose the role field. -/
theorem getMe_returns_role_counterexample :
    getMe wC4Store 1 = Resp.ok ⟨1, "root", "r@x", "", "", "admin"⟩ ∧
    ("admin" : String) ≠ "" := by
  decide

/-! ## Character-level lemmas for the slug generator -/

theorem char_toNat_ofNat_lt (n : Nat) (h : n < 55296) : (Char.ofNat n).toNat = n := by
  unfold Char.ofNat
  split
  · simp [Char.ofNatAux, Char.toNat, UInt32.toNat, BitVec.toNat_ofNatLt]
  · exact absurd (Or.inl h) (by assumption)

theorem char_toNat_inj {c d : Char} (h : c.toNat = d.toNat) : c = d := by
  rw [← Char.ofNat_toNat c, ← Char.ofNat_toNat d, h]

theorem char_ne_of_toNat_ne {c d : Char} (h : c.toNat ≠ d.toNat) : c ≠ d :=
  fun he => h (he ▸ rfl)

theorem lowerChar_toNat (c : Char) :
    (lowerChar c).toNat =
      if 65 ≤ c.toNat ∧ c.toNat ≤ 90 then c.toNat + 32 else c.toNat := by
  unfold lowerChar
  split_ifs with h
  · exact char_toNat_ofNat_lt _ (by omega)
  · rfl

theorem lowerChar_eq_self {c : Char} (h : ¬(65 ≤ c.toNat ∧ c.toNat ≤ 90)) :
    lowerChar c = c := if_neg h

theorem lowerChar_not_upper (c : Char) :
    ¬(65 ≤ (lowerChar c).toNat ∧ (lowerChar c).toNat ≤ 90) := by
  rw [lowerChar_toNat]
  split_ifs with h <;> omega

theorem lowerChar_idem (c : Char) : lowerChar (lowerChar c) = lowerChar c :=
  lowerChar_eq_self (lowerChar_not_upper c)

/-! ## The hyphen-collapsing loop -/

/-- Adjacent-pair reading of `strings.Contains(s, "--") == false`. -/
def noDDRel (a b : Char) : Prop := ¬(a = '-' ∧ b = '-')

theorem containsDD_eq_false_iff (s : List Char) :
    containsDD s = false ↔ List.Chain' noDDRel s := by
  induction s with
  | nil => simp [containsDD]
  | cons a t ih =>
    cases t with
    | nil => simp [containsDD]
    | cons b u =>
      rw [List.chain'_cons, ← ih]
      simp only [containsDD, Bool.or_eq_false_iff, Bool.and_eq_false_iff,
        decide_eq_false_iff_not, noDDRel]
      tauto

theorem mem_replaceDD {c : Char} : ∀ {s : List Char}, c ∈ replaceDD s → c ∈ s := by
  intro s
  induction s using replaceDD.induct with
  | case1 => simp [replaceDD]
  | case2 d => simp [replaceDD]
  | case3 c1 c2 rest h ih =>
    simp only [replaceDD, if_pos h]
    intro hm
    rcases List.mem_cons.mp hm with h1 | h1
    · subst h1; simp [h.1]
    · exact List.mem_cons_of_mem _ (List.mem_cons_of_mem _ (ih h1))
  | case4 c1 c2 rest h ih =>
    simp only [replaceDD, if_neg h]
    intro hm
    rcases List.mem_cons.mp hm with h1 | h1
    · subst h1; exact List.mem_cons_self _ _
    · exact List.mem_cons_of_mem _ (ih h1)

theorem replaceDD_length_le : ∀ (s : List Char), (replaceDD s).length ≤ s.length := by
  intro s
  induction s using replaceDD.induct with
  | case1 => simp [replaceDD]
  | case2 d => simp [replaceDD]
  | case3 c1 c2 rest h ih =>
    simp only [replaceDD, if_pos h, List.length_cons]
    omega
  | case4 c1 c2 rest h ih =>
    simp only [replaceDD, if_neg h, List.length_cons]
    simp only [List.length_cons] at ih
    omega

theorem replaceDD_length_lt : ∀ {s : List Char}, containsDD s = true →
    (replaceDD s).length < s.length := by
  intro s
  induction s using replaceDD.induct with
  | case1 => intro h; simp [containsDD] at h
  | case2 d => intro h; simp [containsDD] at h
  | case3 c1 c2 rest h ih =>
    intro _
    simp only [replaceDD, if_pos h, List.length_cons]
    have := replaceDD_length_le rest
    omega
  | case4 c1 c2 rest h ih =>
    intro hc
    have hc' : containsDD (c2 :: rest) = true := by
      simp only [containsDD, Bool.or_eq_true, Bool.and_eq_true,
        decide_eq_true_eq] at hc
      rcases hc with h1 | h1
      · exact absurd h1 h
      · exact h1
    simp only [replaceDD, if_neg h, List.length_cons]
    exact Nat.succ_lt_succ (ih hc')

theorem collapseLoop_of_noDD {s : List Char} (h : containsDD s = false) (n : Nat) :
    collapseLoop n s = s := by
  cases n with
  | zero => rfl
  | succ m => simp [collapseLoop, h]

theorem containsDD_collapseLoop :
    ∀ (n : Nat) (s : List Char), s.length ≤ n →
      containsDD (collapseLoop n s) = false := by
  intro n
  induction n with
  | zero =>
    intro s hs
    have : s = [] := List.eq_nil_of_length_eq_zero (by omega)
    subst this; rfl
  | succ m ih =>
    intro s hs
    by_cases h : containsDD s = true
    · rw [collapseLoop, if_pos (by simp [h])]
      exact ih _ (by have := replaceDD_length_lt h; omega)
    · rw [collapseLoop, if_neg (by simp_all)]
      simpa using h

theorem mem_collapseLoop {c : Char} :
    ∀ (n : Nat) {s : List Char}, c ∈ collapseLoop n s → c ∈ s := by
  intro n
  induction n with
  | zero => intro s h; exact h
  | succ m ih =>
    intro s h
    rw [collapseLoop] at h
    by_cases hc : containsDD s = true
    · rw [if_pos (by simp [hc])] at h
      exact mem_replaceDD (ih h)
    · rwa [if_neg (by simp_all)] at h

/-! ## Trim lemmas -/

theorem dropWhile_head_false {p : Char → Bool} :
    ∀ {l : List Char} {c : Char} {rest : List Char},
      l.dropWhile p = c :: rest → p c = false := by
  intro l
  induction l with
  | nil => intro c rest h; cases h
  | cons a t ih =>
    intro c rest h
    rw [List.dropWhile_cons] at h
    split_ifs at h with hp
    · exact ih h
    · cases h; simpa using hp

theorem dropWhile_dropWhile (p : Char → Bool) (l : List Char) :
    List.dropWhile p (List.dropWhile p l) = List.dropWhile p l := by
  induction l with
  | nil => rfl
  | cons a t ih =>
    by_cases h : p a
    · simp [List.dropWhile_cons, h, ih]
    · simp [List.dropWhile_cons, h]

theorem dropWhile_eq_self_of_heads {p : Char → Bool} {l : List Char}
    (h : ∀ c rest, l = c :: rest → p c = false) : l.dropWhile p = l := by
  cases l with
  | nil => rfl
  | cons c rest => simp [List.dropWhile_cons, h c rest rfl]

theorem trimHyphens_idem (s : List Char) :
    trimHyphens (trimHyphens s) = trimHyphens s := by
  unfold trimHyphens
  have h1 : (((s.dropWhile fun c => c = '-').reverse.dropWhile fun c =>
      c = '-').reverse.dropWhile fun c => c = '-') =
        ((s.dropWhile fun c => c = '-').reverse.dropWhile fun c => c = '-').reverse := by
    apply dropWhile_eq_self_of_heads
    intro c rest hc
    have hsuf : ((s.dropWhile fun c => c = '-').reverse.dropWhile fun c => c = '-') <:+
        (s.dropWhile fun c => c = '-').reverse := List.dropWhile_suffix _
    have hpre : ((s.dropWhile fun c => c = '-').reverse.dropWhile fun c =>
        c = '-').reverse <+: (s.dropWhile fun c => c = '-') := by
      have := List.reverse_prefix.mpr hsuf
      simpa using this
    obtain ⟨w, hw⟩ := hpre
    rw [hc] at hw
    exact dropWhile_head_false (by rw [← hw]; rfl)
  rw [h1, List.reverse_reverse, dropWhile_dropWhile]

theorem mem_trimHyphens {c : Char} {s : List Char} (h : c ∈ trimHyphens s) :
    c ∈ s := by
  unfold trimHyphens at h
  rw [List.mem_reverse] at h
  have h1 : c ∈ (s.dropWhile fun c => c = '-').reverse :=
    (List.dropWhile_suffix _).subset h
  rw [List.mem_reverse] at h1
  exact (List.dropWhile_suffix _).subset h1

theorem noDD_trimHyphens {s : List Char} (h : containsDD s = false) :
    containsDD (trimHyphens s) = false := by
  rw [containsDD_eq_false_iff] at h ⊢
  unfold trimHyphens
  have h1 : List.Chain' noDDRel (s.dropWhile fun c => c = '-') :=
    h.suffix (List.dropWhile_suffix _)
  have h2 : List.Chain' (flip noDDRel) (s.dropWhile fun c => c = '-') :=
    h1.imp fun a b hab hcon => hab ⟨hcon.2, hcon.1⟩
  have h3 : List.Chain' noDDRel (s.dropWhile fun c => c = '-').reverse :=
    List.chain'_reverse.mpr h2
  have h4 : List.Chain' noDDRel
      ((s.dropWhile fun c => c = '-').reverse.dropWhile fun c => c = '-') :=
    h3.suffix (List.dropWhile_suffix _)
  have h5 : List.Chain' (flip noDDRel)
      ((s.dropWhile fun c => c = '-').reverse.dropWhile fun c => c = '-') :=
    h4.imp fun a b hab hcon => hab ⟨hcon.2, hcon.1⟩
  exact List.chain'_reverse.mpr h5

/-! ## Idempotence of the slug generator -/

/-- The characters and shape a `generateSlug` output always has: all
characters are lower-case-fixed, non-space, kept by the special-character
filter; no `"--"` remains; and hyphen-trimming is a no-op. -/
def CleanL (s : List Char) : Prop :=
  (∀ c ∈ s, lowerChar c = c ∧ c ≠ ' ' ∧ keepChar c = true) ∧
  containsDD s = false ∧ trimHyphens s = s

theorem generateSlugL_eq_self {s : List Char} (h : CleanL s) :
    generateSlugL s = s := by
  obtain ⟨hc, hdd, htrim⟩ := h
  unfold generateSlugL
  have e1 : s.map lowerChar = s :=
    (List.map_congr_left fun a ha => (hc a ha).1).trans (List.map_id s)
  have e2 : replaceSpaces s = s := by
    unfold replaceSpaces
    exact (List.map_congr_left fun a ha => if_neg (hc a ha).2.1).trans (List.map_id s)
  have e3 : removeSpecialChars s = s :=
    List.filter_eq_self.mpr fun a ha => (hc a ha).2.2
  rw [e1, e2, e3]
  unfold collapseHyphens
  rw [collapseLoop_of_noDD hdd, htrim]

theorem cleanL_generateSlugL (x : List Char) : CleanL (generateSlugL x) := by
  refine ⟨?_, ?_, ?_⟩
  · intro c hc
    have h1 : c ∈ collapseHyphens (removeSpecialChars (replaceSpaces (x.map lowerChar))) :=
      mem_trimHyphens hc
    have h2 : c ∈ removeSpecialChars (replaceSpaces (x.map lowerChar)) :=
      mem_collapseLoop _ h1
    have h3 : keepChar c = true := List.of_mem_filter h2
    have h4 : c ∈ replaceSpaces (x.map lowerChar) := List.mem_of_mem_filter h2
    obtain ⟨c0, hc0, hceq⟩ := List.mem_map.mp h4
    obtain ⟨a, _, haeq⟩ := List.mem_map.mp hc0
    refine ⟨?_, ?_, h3⟩
    · by_cases hsp : c0 = ' '
      · rw [← hceq, if_pos hsp]; decide
      · rw [← hceq, if_neg hsp, ← haeq]; exact lowerChar_idem a
    · by_cases hsp : c0 = ' '
      · rw [← hceq, if_pos hsp]; decide
      · rw [← hceq, if_neg hsp]; exact hsp
  · exact noDD_trimHyphens (containsDD_collapseLoop _ _ le_rfl)
  · exact trimHyphens_idem _

/-- Claim C9: the slug generator is idempotent — re-slugifying a slug
returns it unchanged, for every input string. -/
theorem generateSlug_idem (x : String) :
    generateSlug (generateSlug x) = generateSlug x := by
  show String.mk (generateSlugL (generateSlugL x.data)) = String.mk (generateSlugL x.data)
  rw [generateSlugL_eq_self (cleanL_generateSlugL x.data)]

/-! ## The slug generator against the spec's algorithm (C5) -/

theorem specWhitespace_false_of_ge97 {c : Char} (h : 97 ≤ c.toNat) :
    specWhitespace c = false := by
  have h1 : c ≠ ' ' := char_ne_of_toNat_ne (by have e : (' ').toNat = 32 := rfl; omega)
  have h2 : c ≠ '\t' := char_ne_of_toNat_ne (by have e : ('\t').toNat = 9 := rfl; omega)
  have h3 : c ≠ '\n' := char_ne_of_toNat_ne (by have e : ('\n').toNat = 10 := rfl; omega)
  have h4 : c ≠ '\x0b' := char_ne_of_toNat_ne (by have e : ('\x0b').toNat = 11 := rfl; omega)
  have h5 : c ≠ '\x0c' := char_ne_of_toNat_ne (by have e : ('\x0c').toNat = 12 := rfl; omega)
  have h6 : c ≠ '\r' := char_ne_of_toNat_ne (by have e : ('\r').toNat = 13 := rfl; omega)
  simp [specWhitespace, h1, h2, h3, h4, h5, h6]

theorem goSpace_false_of_ge97 {c : Char} (h : 97 ≤ c.toNat) :
    goSpace c = false := by
  have h1 : c ≠ ' ' := char_ne_of_toNat_ne (by have e : (' ').toNat = 32 := rfl; omega)
  have h2 : c ≠ '\t' := char_ne_of_toNat_ne (by have e : ('\t').toNat = 9 := rfl; omega)
  have h3 : c ≠ '\n' := char_ne_of_toNat_ne (by have e : ('\n').toNat = 10 := rfl; omega)
  have h5 : c ≠ '\x0c' := char_ne_of_toNat_ne (by have e : ('\x0c').toNat = 12 := rfl; omega)
  have h6 : c ≠ '\r' := char_ne_of_toNat_ne (by have e : ('\r').toNat = 13 := rfl; omega)
  simp [goSpace, h1, h2, h3, h5, h6]

theorem specWhitespace_eq_space {a : Char} (h2 : a ≠ '\t') (h3 : a ≠ '\n')
    (h4 : a ≠ '\x0b') (h5 : a ≠ '\x0c') (h6 : a ≠ '\r') :
    specWhitespace a = decide (a = ' ') := by
  simp [specWhitespace, h2, h3, h4, h5, h6]

theorem goSpace_eq_space {a : Char} (h2 : a ≠ '\t') (h3 : a ≠ '\n')
    (h5 : a ≠ '\x0c') (h6 : a ≠ '\r') :
    goSpace a = decide (a = ' ') := by
  simp [goSpace, h2, h3, h5, h6]

theorem keepChar_eq_specKeep {c : Char}
    (hup : ¬(65 ≤ c.toNat ∧ c.toNat ≤ 90)) (hws : goSpace c = false) :
    keepChar c = specKeep c := by
  unfold keepChar specKeep
  rw [hws]
  have hu : (decide (65 ≤ c.toNat) && decide (c.toNat ≤ 90)) = false := by
    simp only [Bool.and_eq_false_iff, decide_eq_false_iff_not]
    omega
  rw [hu]
  simp

/-- Claim C5 (amended): `generateSlug` lower-cases, turns each space
(U+0020, only) into a hyphen, strips everything outside ASCII letters,
digits, RE2 whitespace and the hyphen, collapses consecutive hyphens and
trims boundary hyphens.  On every input whose whitespace consists only of
spaces it coincides with the spec's algorithm; but other whitespace is not
replaced by hyphens — tab, LF, FF and CR survive the strip (so the output
is not confined to `[a-z0-9-]`), as the counterexample shows. -/
theorem generateSlug_matches_spec_on_space_only (s : String)
    (h : ∀ c ∈ s.data, c ≠ '\t' ∧ c ≠ '\n' ∧ c ≠ '\x0b' ∧ c ≠ '\x0c' ∧ c ≠ '\r') :
    generateSlug s = specSlugify s := by
  show String.mk (generateSlugL s.data) = String.mk (specSlugifyL s.data)
  unfold generateSlugL specSlugifyL
  have eA : replaceSpaces (s.data.map lowerChar) =
      (s.data.map lowerChar).map fun c => if specWhitespace c then '-' else c := by
    unfold replaceSpaces
    apply List.map_congr_left
    intro c hcm
    obtain ⟨a, ha, haeq⟩ := List.mem_map.mp hcm
    obtain ⟨h2, h3, h4, h5, h6⟩ := h a ha
    by_cases hup : 65 ≤ a.toNat ∧ a.toNat ≤ 90
    · have hge : 97 ≤ c.toNat := by
        rw [← haeq, lowerChar_toNat, if_pos hup]; omega
      have hsp : c ≠ ' ' :=
        char_ne_of_toNat_ne (by have e : (' ').toNat = 32 := rfl; omega)
      rw [if_neg hsp, if_neg (by simp [specWhitespace_false_of_ge97 hge])]
    · have hca : c = a := haeq ▸ lowerChar_eq_self hup
      subst hca
      by_cases hsp : c = ' '
      · subst hsp; decide
      · rw [if_neg hsp,
          if_neg (by simp [specWhitespace_eq_space h2 h3 h4 h5 h6, hsp])]
  rw [← eA]
  have eB : (replaceSpaces (s.data.map lowerChar)).filter keepChar =
      (replaceSpaces (s.data.map lowerChar)).filter specKeep := by
    apply List.filter_congr
    intro c hcm
    unfold replaceSpaces at hcm
    obtain ⟨c0, hc0, hceq⟩ := List.mem_map.mp hcm
    obtain ⟨a, ha, haeq⟩ := List.mem_map.mp hc0
    obtain ⟨h2, h3, h4, h5, h6⟩ := h a ha
    by_cases hsp : c0 = ' '
    · rw [← hceq, if_pos hsp]
      decide
    · rw [← hceq, if_neg hsp]
      by_cases hup : 65 ≤ a.toNat ∧ a.toNat ≤ 90
      · have hge : 97 ≤ c0.toNat := by
          rw [← haeq, lowerChar_toNat, if_pos hup]; omega
        exact keepChar_eq_specKeep (by omega) (goSpace_false_of_ge97 hge)
      · have hca : c0 = a := haeq ▸ lowerChar_eq_self hup
        rw [hca]
        exact keepChar_eq_specKeep hup
          (by simp [goSpace_eq_space h2 h3 h5 h6, hca ▸ hsp])
  unfold removeSpecialChars
  rw [eB]

/-- Witness for C5 (amended): on a title whose whitespace is plain spaces
the two algorithms agree. -/
theorem generateSlug_matches_spec_witness :
    generateSlug "Hello, World! 2024" = specSlugify "Hello, World! 2024" :=
  generateSlug_matches_spec_on_space_only "Hello, World! 2024" (by decide)

/-- Counterexample to C5 as stated: on `"a\tb"` the code keeps the tab
(the regex class `\s` retains it and only spaces were hyphenated), while
the spec's algorithm yields `"a-b"`; in particular the output is not
confined to `[a-z0-9-]`. -/
theorem generateSlug_spec_counterexample :
    generateSlug "a\tb" = "a\tb" ∧ specSlugify "a\tb" = "a-b" ∧
    generateSlug "a\tb" ≠ specSlugify "a\tb" ∧
    '\t' ∈ (generateSlug "a\tb").data := by
  decide

end BlogApi
